import Mathlib

/-!
Verification of the device I/O dispatch and scheduling layer of
flipper-uxn (`src/uxn.c`): the event handlers (`input_callback`,
`timer_callback`), the device bus (`emu_dei`, `emu_deo`), the program
loader and the framebuffer compositor inside `uxn_app`.

The VM interpreter `uxn_eval` and the screen peripheral
(`screen_dei`/`screen_deo`) are external to `src/uxn.c`; handlers are
modelled as returning, next to the updated session state, the trace of
program-counter addresses they invoke `uxn_eval` with, and the screen
peripheral is abstracted (a function parameter for reads, an explicit
call record for writes).  Bytes are modelled as `Nat` with explicit
byte-range hypotheses where the C type `uint8_t` matters.
-/

namespace FlipperUxn

/-- Logical key identities delivered by the input source (the `InputKey`
enum of the Flipper SDK).  The six keys recognized by `button_bit` get one
constructor each; `other` stands for any further enum value (such as
`InputKeyMAX`), which falls into the `default` branch of `button_bit`. -/
inductive InputKey where
  | ok
  | back
  | up
  | down
  | left
  | right
  | other
deriving DecidableEq

/-- Event types of the input source (the `InputType` enum of the Flipper
SDK).  The handler distinguishes `press`, `release` and `long`; `other`
stands for the remaining enum values (`InputTypeShort`, `InputTypeRepeat`). -/
inductive InputType where
  | press
  | release
  | long
  | other
deriving DecidableEq

/-- Translation of the Flipper SDK `InputEvent` fields read by
`input_callback`: an event type and a key. -/
structure InputEvent where
  type : InputType
  key : InputKey
deriving DecidableEq

/-- Translation of `button_bit` from `src/uxn.c`: the fixed bit assignment
for the six recognized keys; every other key maps to 0. -/
def button_bit : InputKey → Nat
  | .ok => 0x01
  | .back => 0x02
  | .up => 0x10
  | .down => 0x20
  | .left => 0x40
  | .right => 0x80
  | .other => 0

/-- Pointwise store into a byte array (`a[addr] = value` in C), used for
the 256-entry device register file `uxn->dev`. -/
def writeReg (d : Nat → Nat) (addr value : Nat) : Nat → Nat :=
  fun i => if i = addr then value else d i

/-- Translation of the `UxnState` fields of `src/uxn.c` that this layer
mutates: the device register file `dev` (the byte array `uxn->dev`), the
session lifecycle flag `running` and the dirty flag `redraw`. -/
structure UxnState where
  dev : Nat → Nat
  running : Bool
  redraw : Bool

/-- Vector resolution as written in both handlers of `src/uxn.c`:
`dev[hi_addr] << 8 | dev[lo_addr]`. -/
def resolveVector (hi lo : Nat) : Nat := hi <<< 8 ||| lo

/-- Translation of `input_callback` from `src/uxn.c`.  The controller
vector is read from `dev[0x80], dev[0x81]`; a press ORs the key bit into
`dev[0x82]` and invokes `uxn_eval` at the vector; a release ANDs the 8-bit
complement of the key bit (`&= ~button_bit(key)` on a `uint8_t`, i.e.
`&&& (0xFF ^^^ bit)`) and invokes `uxn_eval` at the vector; a long press of
back clears `running`.  Returns the updated state and the trace of
`uxn_eval` invocations (the interpreter itself is external to `src/uxn.c`;
its own mutations of VM state are outside this model). -/
def input_callback (event : InputEvent) (state : UxnState) : UxnState × List Nat :=
  let controller_vector := resolveVector (state.dev 0x80) (state.dev 0x81)
  let step :=
    if event.type = .press then
      ({ state with
          dev := writeReg state.dev 0x82 (state.dev 0x82 ||| button_bit event.key) },
        [controller_vector])
    else if event.type = .release then
      ({ state with
          dev := writeReg state.dev 0x82
            (state.dev 0x82 &&& (0xFF ^^^ button_bit event.key)) },
        [controller_vector])
    else (state, ([] : List Nat))
  let state1 := step.1
  let state2 :=
    if event.key = .back ∧ event.type = .long then
      { state1 with running := false }
    else state1
  (state2, step.2)

/-- Translation of `timer_callback` from `src/uxn.c`: read the screen
vector from `dev[0x20], dev[0x21]`, invoke `uxn_eval` at it
(unconditionally), then set the dirty flag `redraw`. -/
def timer_callback (state : UxnState) : UxnState × List Nat :=
  let screen_vector := resolveVector (state.dev 0x20) (state.dev 0x21)
  ({ state with redraw := true }, [screen_vector])

/-- Translation of `emu_dei` from `src/uxn.c`: the address splits into a
4-bit device selector `addr >>> 4` and a port; selector 2 delegates to the
screen device (`screen_dei`, external to `src/uxn.c`, abstracted here as a
function parameter); every other selector returns the raw stored register
byte. -/
def emu_dei (screen_dei : Nat → Nat) (dev : Nat → Nat) (addr : Nat) : Nat :=
  match addr >>> 4 with
  | 2 => screen_dei addr
  | _ => dev addr

/-- Record of a delegated `screen_deo(uxn->ram, &uxn->dev[0x20], port)`
call made by `emu_deo`: the base register offset of the device block
(0x20), the 4-bit port, and the contents of the register file at the
moment the handler is entered. -/
structure DeoCall where
  base : Nat
  port : Nat
  regsAtCall : Nat → Nat

/-- Translation of `emu_deo` from `src/uxn.c`: the value is stored into
`dev[addr]` first, unconditionally; then device selector 2 delegates to
the screen device.  The delegated call, if any, is returned as a record
capturing what the handler observes; `screen_deo` itself is external to
`src/uxn.c` and its effects (drawing into the colour planes, possible
writes back into its register block) are outside this model. -/
def emu_deo (dev : Nat → Nat) (addr value : Nat) : (Nat → Nat) × Option DeoCall :=
  let dev1 := writeReg dev addr value
  let port := addr &&& 0x0f
  match addr >>> 4 with
  | 2 => (dev1, some { base := 0x20, port := port, regsAtCall := dev1 })
  | _ => (dev1, none)

/-- Per-pixel compositing decision of the render loop in `uxn_app`:
`bool on = fg & 1; if (fg == 0) on = bg & 1;`. -/
def pixel_on (fg bg : Nat) : Bool :=
  let on0 := fg &&& 1 != 0
  let on1 := if fg == 0 then bg &&& 1 != 0 else on0
  on1

/-- Modelled from the spec: `uxn_app` obtains VM memory with
`ram = malloc(0x10000)` from the Flipper platform allocator, which is not
part of `src/uxn.c`; the spec states that after a load "the first 256
bytes are reserved/zero", so the allocator is modelled as returning
zero-initialised memory. -/
def mallocRam : Nat → Nat := fun _ => 0

/-- Program load in `uxn_app`:
`storage_file_read(file, ram + 0x100, 0x10000 - 0x100)` copies the
program byte stream (`prog`, of length `len`, at most `0xFF00` bytes read)
into VM memory starting at offset `0x100`; bytes below `0x100` keep the
freshly allocated contents (`mallocRam`). -/
def load_ram (prog : Nat → Nat) (len : Nat) : Nat → Nat :=
  fun i => if 0x100 ≤ i ∧ i < 0x100 + len then prog (i - 0x100) else mallocRam i

/-- One poll of the render loop in `uxn_app` (the body of
`while (state.running)` guarded by `if (state.redraw)`): when the dirty
flag is set, composite and commit exactly one frame — counted in the
second component — and clear the flag; otherwise do nothing. -/
def render_poll (state : UxnState) (commits : Nat) : UxnState × Nat :=
  if state.redraw then ({ state with redraw := false }, commits + 1)
  else (state, commits)

/-- State after `n` consecutive timer ticks (`timer_callback`), tracking
the session state only. -/
def ticks : Nat → UxnState → UxnState
  | 0, s => s
  | n + 1, s => ticks n (timer_callback s).1

/-- State after a sequence of input events is handled by
`input_callback`, tracking the session state only. -/
def run_events : List InputEvent → UxnState → UxnState
  | [], s => s
  | e :: es, s => run_events es (input_callback e s).1

/-- The six keys recognized by `button_bit` (those with a nonzero bit). -/
def sixKeys : List InputKey := [.ok, .back, .up, .down, .left, .right]

/-! ## Helper lemmas -/

/-- Both components of `emu_deo` start from the unconditional store: the
returned register file is exactly `writeReg dev addr value`, in every
branch of the device-selector dispatch. -/
theorem emu_deo_fst (dev : Nat → Nat) (addr value : Nat) :
    (emu_deo dev addr value).1 = writeReg dev addr value := by
  unfold emu_deo
  split <;> rfl

/-- Reading back the just-stored register byte. -/
theorem writeReg_same (dev : Nat → Nat) (addr value : Nat) :
    writeReg dev addr value addr = value := by
  simp [writeReg]

/-- A byte ANDed with 1 is 0 or 1. -/
theorem and_one_cases (n : Nat) : n &&& 1 = 0 ∨ n &&& 1 = 1 := by
  rw [Nat.and_one_is_mod]
  exact Nat.mod_two_eq_zero_or_one n

/-! ## C2: framebuffer compositor -/

/-- C2: for every pixel, the composited pixel is on iff the low bit of
`fg` is set, or `fg` is exactly zero and the low bit of `bg` is set; in
particular (fg,bg) = (0,0) ↦ off, (0,1) ↦ on, (1,0) ↦ on, (2,1) ↦ off,
(3,0) ↦ on. -/
theorem C2_compositor (fg bg : Nat) :
    pixel_on fg bg = ((fg &&& 1 == 1) || ((fg == 0) && (bg &&& 1 == 1))) ∧
    pixel_on 0 0 = false ∧ pixel_on 0 1 = true ∧ pixel_on 1 0 = true ∧
    pixel_on 2 1 = false ∧ pixel_on 3 0 = true := by
  refine ⟨?_, by decide, by decide, by decide, by decide, by decide⟩
  by_cases h : fg = 0
  · subst h
    rcases and_one_cases bg with hb | hb <;> simp [pixel_on, hb]
  · rcases and_one_cases fg with hf | hf <;> simp [pixel_on, h, hf]

/-! ## C1: no zero-vector skip in the handlers -/

/-- C1 (counterexample): with every device register zero, the controller
and screen vectors resolve to 0, yet a press event makes `input_callback`
invoke the interpreter — with address 0 — and a timer tick makes
`timer_callback` do the same: neither handler performs a zero-vector
skip. -/
theorem C1_zero_vector_counterexample :
    (⟨fun _ => 0, true, false⟩ : UxnState).dev 0x80 = 0 ∧
    (⟨fun _ => 0, true, false⟩ : UxnState).dev 0x81 = 0 ∧
    (input_callback ⟨.press, .ok⟩ ⟨fun _ => 0, true, false⟩).2 = [0] ∧
    (timer_callback ⟨fun _ => 0, true, false⟩).2 = [0] := by
  refine ⟨rfl, rfl, by decide, by decide⟩

/-- C1 (amended): on every press and every release event the input handler
invokes the interpreter exactly once, at the resolved controller vector,
and on every tick the timer handler invokes it exactly once, at the
resolved screen vector — unconditionally, whether or not the vector is
zero (the zero-vector check lives in the external interpreter, not in
these handlers). -/
theorem C1_unconditional_resume (s : UxnState) (e : InputEvent)
    (h : e.type = .press ∨ e.type = .release) :
    (input_callback e s).2 = [resolveVector (s.dev 0x80) (s.dev 0x81)] ∧
    (timer_callback s).2 = [resolveVector (s.dev 0x20) (s.dev 0x21)] := by
  rcases h with h | h <;> simp [input_callback, timer_callback, h]

/-- Witness for C1 (amended) at a concrete state and event. -/
theorem C1_unconditional_resume_witness :
    (input_callback ⟨.press, .ok⟩ ⟨fun _ => 5, true, false⟩).2 =
      [resolveVector 5 5] ∧
    (timer_callback ⟨fun _ => 5, true, false⟩).2 = [resolveVector 5 5] :=
  C1_unconditional_resume ⟨fun _ => 5, true, false⟩ ⟨.press, .ok⟩ (Or.inl rfl)

/-! ## C8: vector resolution -/

/-- C8: vector resolution is the pure function `hi*256 + lo` of the two
register bytes, and the handlers read the controller pair at the even/odd
addresses (0x80, 0x81) and the screen pair at (0x20, 0x21). -/
theorem C8_vector_resolution (hi lo : Nat) (s : UxnState) (hlo : lo < 256) :
    resolveVector hi lo = hi * 256 + lo ∧
    (input_callback ⟨.press, .ok⟩ s).2 = [resolveVector (s.dev 0x80) (s.dev 0x81)] ∧
    (input_callback ⟨.release, .ok⟩ s).2 = [resolveVector (s.dev 0x80) (s.dev 0x81)] ∧
    (timer_callback s).2 = [resolveVector (s.dev 0x20) (s.dev 0x21)] := by
  refine ⟨?_, by simp [input_callback], by simp [input_callback], rfl⟩
  rw [resolveVector, Nat.shiftLeft_eq, Nat.mul_comm, ← Nat.mul_add_lt_is_or hlo hi]

/-- Witness for C8 at concrete bytes and a concrete state. -/
theorem C8_vector_resolution_witness :
    resolveVector 1 2 = 1 * 256 + 2 ∧
    (input_callback ⟨.press, .ok⟩ ⟨fun _ => 3, true, false⟩).2 =
      [resolveVector 3 3] ∧
    (input_callback ⟨.release, .ok⟩ ⟨fun _ => 3, true, false⟩).2 =
      [resolveVector 3 3] ∧
    (timer_callback ⟨fun _ => 3, true, false⟩).2 = [resolveVector 3 3] :=
  C8_vector_resolution 1 2 ⟨fun _ => 3, true, false⟩ (by decide)

/-! ## C3: program load layout -/

/-- C3: after `uxn_app` loads a program stream of length `len` (the read
is capped at `0xFF00` bytes), every byte below offset 0x100 is zero and
byte `j` of the stream sits at offset `0x100 + j`. -/
theorem C3_load_layout (prog : Nat → Nat) (len i j : Nat)
    (_hlen : len ≤ 0xFF00) (hi : i < 0x100) (hj : j < len) :
    load_ram prog len i = 0 ∧ load_ram prog len (0x100 + j) = prog j := by
  constructor
  · have h : ¬ (0x100 ≤ i ∧ i < 0x100 + len) := by omega
    simp [load_ram, mallocRam, h]
  · have h : 0x100 ≤ 0x100 + j ∧ 0x100 + j < 0x100 + len := by omega
    simp [load_ram, h]

/-- Witness for C3 at a concrete one-byte program. -/
theorem C3_load_layout_witness :
    load_ram (fun _ => 7) 1 0 = 0 ∧ load_ram (fun _ => 7) 1 (0x100 + 0) = 7 :=
  C3_load_layout (fun _ => 7) 1 0 0 (by decide) (by decide) (by decide)

/-! ## C4: device writes stored before delegation -/

/-- C4: `emu_deo` stores the value into the register file at the written
address unconditionally (for every address), and for a display-device
address (selector 2) the delegated screen call observes exactly the
post-store register file, in which the just-written value is readable. -/
theorem C4_deo_store_first (dev : Nat → Nat) (addr value daddr dvalue : Nat)
    (h : daddr >>> 4 = 2) :
    (emu_deo dev addr value).1 addr = value ∧
    (emu_deo dev daddr dvalue).2 =
      some ⟨0x20, daddr &&& 0x0f, writeReg dev daddr dvalue⟩ ∧
    writeReg dev daddr dvalue daddr = dvalue := by
  refine ⟨?_, ?_, writeReg_same dev daddr dvalue⟩
  · rw [emu_deo_fst]
    exact writeReg_same dev addr value
  · unfold emu_deo
    rw [h]

/-- Witness for C4 at concrete addresses 0x31 (no peripheral) and 0x2e
(display device). -/
theorem C4_deo_store_first_witness :
    (emu_deo (fun _ => 0) 0x31 7).1 0x31 = 7 ∧
    (emu_deo (fun _ => 0) 0x2e 9).2 =
      some ⟨0x20, 0x2e &&& 0x0f, writeReg (fun _ => 0) 0x2e 9⟩ ∧
    writeReg (fun _ => 0) 0x2e 9 0x2e = 9 :=
  C4_deo_store_first (fun _ => 0) 0x31 7 0x2e 9 (by decide)

/-! ## C5: write-then-read roundtrip away from the screen device -/

/-- C5: for every address whose 4-bit device selector is not 2 (the only
selector with custom read behaviour), `emu_deo` followed by `emu_dei` at
the same address returns the written value, whatever the screen device's
read function does. -/
theorem C5_roundtrip_no_peripheral (screen_dei dev : Nat → Nat)
    (addr value : Nat) (h : addr >>> 4 ≠ 2) :
    emu_dei screen_dei (emu_deo dev addr value).1 addr = value := by
  rw [emu_deo_fst]
  unfold emu_dei
  split <;> simp_all [writeReg]

/-- Witness for C5 at concrete address 0x31 (selector 3), with a screen
read function that would return 0xAB if it were consulted. -/
theorem C5_roundtrip_no_peripheral_witness :
    emu_dei (fun _ => 0xAB) (emu_deo (fun _ => 0) 0x31 7).1 0x31 = 7 :=
  C5_roundtrip_no_peripheral (fun _ => 0xAB) (fun _ => 0) 0x31 7 (by decide)

/-! ## C7: long-press back -/

/-- C7: a long-press event of the back key clears the session lifecycle
flag, leaves the whole register file (hence the button mask) and the
dirty flag unchanged, and does not invoke the interpreter. -/
theorem C7_long_back (s : UxnState) :
    (input_callback ⟨.long, .back⟩ s).1.running = false ∧
    (input_callback ⟨.long, .back⟩ s).1.dev = s.dev ∧
    (input_callback ⟨.long, .back⟩ s).1.redraw = s.redraw ∧
    (input_callback ⟨.long, .back⟩ s).2 = [] :=
  ⟨rfl, rfl, rfl, rfl⟩

/-! ## Bitwise helper lemmas for the button mask -/

/-- ORing zero into a byte changes nothing. -/
theorem lor_zero_self (x : Nat) : x ||| 0 = x := by
  apply Nat.eq_of_testBit_eq
  intro i
  rw [Nat.testBit_lor, Nat.zero_testBit, Bool.or_false]

/-- ORing in bits disjoint from `b` does not change the `b`-masked part. -/
theorem lor_land_of_disjoint (m a b : Nat) (h : a &&& b = 0) :
    (m ||| a) &&& b = m &&& b := by
  apply Nat.eq_of_testBit_eq
  intro i
  have h2 : (a &&& b).testBit i = false := by rw [h]; exact Nat.zero_testBit i
  rw [Nat.testBit_land] at h2
  rw [Nat.testBit_land, Nat.testBit_lor, Nat.testBit_land]
  cases hb : b.testBit i <;> cases ha : a.testBit i <;> simp_all

/-- ANDing with a mask that keeps every bit of `b` does not change the
`b`-masked part. -/
theorem land_land_of_superset (m x b : Nat) (h : x &&& b = b) :
    (m &&& x) &&& b = m &&& b := by
  apply Nat.eq_of_testBit_eq
  intro i
  have h2 : (x &&& b).testBit i = b.testBit i := by rw [h]
  rw [Nat.testBit_land] at h2
  rw [Nat.testBit_land, Nat.testBit_land, Nat.testBit_land]
  cases hb : b.testBit i <;> cases hx : x.testBit i <;> simp_all

/-- Distinct keys are assigned disjoint bits (unrecognized keys get 0). -/
theorem button_bit_disjoint (k k2 : InputKey) (h : k ≠ k2) :
    button_bit k &&& button_bit k2 = 0 := by
  cases k <;> cases k2 <;> first | decide | exact absurd rfl h

/-- The 8-bit complement of a different key's bit keeps every bit of
`button_bit k`. -/
theorem compl_land_button_bit (k2 k : InputKey) (h : k2 ≠ k) :
    (0xFF ^^^ button_bit k2) &&& button_bit k = button_bit k := by
  cases k2 <;> cases k <;> first | decide | exact absurd rfl h

set_option maxRecDepth 8000 in
/-- Press-then-release roundtrip on the mask byte: starting from a byte in
which key `k`'s bit is clear, ORing the bit in and then ANDing its 8-bit
complement restores the byte, for each of the six recognized keys. -/
theorem mask_roundtrip (k : InputKey) (hk : k ∈ sixKeys) :
    ∀ m, m < 256 → m &&& button_bit k = 0 →
      (m ||| button_bit k) &&& (0xFF ^^^ button_bit k) = m := by
  have hk6 : k = .ok ∨ k = .back ∨ k = .up ∨ k = .down ∨ k = .left ∨ k = .right := by
    simpa [sixKeys] using hk
  rcases hk6 with rfl | rfl | rfl | rfl | rfl | rfl <;> decide

/-- Handling one input event whose key differs from `k` leaves the
`k`-bit of the mask register untouched. -/
theorem mask_step_preserved (e : InputEvent) (k : InputKey) (hne : e.key ≠ k)
    (s : UxnState) :
    (input_callback e s).1.dev 0x82 &&& button_bit k
      = s.dev 0x82 &&& button_bit k := by
  by_cases hp : e.type = .press
  · simp [input_callback, hp, writeReg]
    exact lor_land_of_disjoint _ _ _ (button_bit_disjoint e.key k hne)
  · by_cases hr : e.type = .release
    · simp [input_callback, hp, hr, writeReg]
      exact land_land_of_superset _ _ _ (compl_land_button_bit e.key k hne)
    · by_cases hb : e.key = .back ∧ e.type = .long <;>
        simp [input_callback, hp, hr, hb]

/-- Handling a whole event sequence that avoids key `k` leaves the
`k`-bit of the mask register untouched. -/
theorem run_events_mask (es : List InputEvent) (s : UxnState) (k : InputKey)
    (havoid : ∀ e ∈ es, e.key ≠ k) :
    (run_events es s).dev 0x82 &&& button_bit k
      = s.dev 0x82 &&& button_bit k := by
  induction es generalizing s with
  | nil => rfl
  | cons e es ih =>
    show (run_events es (input_callback e s).1).dev 0x82 &&& button_bit k
      = s.dev 0x82 &&& button_bit k
    rw [ih _ (fun e2 he2 => havoid e2 (List.mem_cons_of_mem _ he2))]
    exact mask_step_preserved e k (havoid e (List.mem_cons_self _ _)) s

/-! ## C6: button mask discipline -/

/-- C6: for each recognized key `k` (with its bit clear in the mask byte,
as it is whenever `k` is not already held), a press followed by a release
restores the mask register exactly; the bit assignments of distinct keys
are pairwise disjoint; bits 0x04 and 0x08 are assigned to no key; and
across any event sequence that never presses `k`, the `k`-bit of the mask
stays clear. -/
theorem C6_button_mask (s : UxnState) (k k2 : InputKey) (es : List InputEvent)
    (hk : k ∈ sixKeys) (_hk2 : k2 ∈ sixKeys) (hne : k ≠ k2)
    (hbyte : s.dev 0x82 < 256) (hfree : s.dev 0x82 &&& button_bit k = 0)
    (havoid : ∀ e ∈ es, e.key ≠ k) :
    (input_callback ⟨.release, k⟩ (input_callback ⟨.press, k⟩ s).1).1.dev 0x82
      = s.dev 0x82 ∧
    button_bit k &&& button_bit k2 = 0 ∧
    button_bit k &&& 0x0C = 0 ∧
    (run_events es s).dev 0x82 &&& button_bit k = 0 := by
  refine ⟨?_, button_bit_disjoint k k2 hne, ?_, ?_⟩
  · have h1 : (input_callback ⟨.press, k⟩ s).1.dev 0x82
        = s.dev 0x82 ||| button_bit k := by
      simp [input_callback, writeReg]
    have h2 : (input_callback ⟨.release, k⟩ (input_callback ⟨.press, k⟩ s).1).1.dev 0x82
        = (input_callback ⟨.press, k⟩ s).1.dev 0x82 &&& (0xFF ^^^ button_bit k) := by
      simp [input_callback, writeReg]
    rw [h2, h1]
    exact mask_roundtrip k hk (s.dev 0x82) hbyte hfree
  · cases k <;> decide
  · rw [run_events_mask es s k havoid, hfree]

/-- Witness for C6: key ok pressed and released from the zero state, with
a press/release of up in between checks of the untouched ok bit. -/
theorem C6_button_mask_witness :
    (input_callback ⟨.release, .ok⟩
        (input_callback ⟨.press, .ok⟩ ⟨fun _ => 0, true, false⟩).1).1.dev 0x82
      = 0 ∧
    button_bit .ok &&& button_bit .back = 0 ∧
    button_bit .ok &&& 0x0C = 0 ∧
    (run_events [⟨.press, .up⟩, ⟨.release, .up⟩] ⟨fun _ => 0, true, false⟩).dev 0x82
        &&& button_bit .ok = 0 :=
  C6_button_mask ⟨fun _ => 0, true, false⟩ .ok .back
    [⟨.press, .up⟩, ⟨.release, .up⟩]
    (by decide) (by decide) (by decide) (by decide) (by decide) (by decide)

/-! ## C9: dirty-flag coalescing -/

/-- Once the dirty flag is set, further timer ticks keep it set. -/
theorem ticks_redraw_true (n : Nat) (s : UxnState) (h : s.redraw = true) :
    (ticks n s).redraw = true := by
  induction n generalizing s with
  | zero => exact h
  | succ n ih =>
    show (ticks n (timer_callback s).1).redraw = true
    exact ih _ rfl

/-- C9: any positive number of timer ticks followed by a single render
poll produces exactly one composite-and-commit — not one per tick — and
the poll leaves the dirty flag cleared. -/
theorem C9_dirty_flag_coalescing (s : UxnState) (c n : Nat) (h : 1 ≤ n) :
    (render_poll (ticks n s) c).2 = c + 1 ∧
    (render_poll (ticks n s) c).1.redraw = false := by
  obtain ⟨m, rfl⟩ : ∃ m, n = m + 1 := ⟨n - 1, by omega⟩
  have hr : (ticks (m + 1) s).redraw = true := by
    show (ticks m (timer_callback s).1).redraw = true
    exact ticks_redraw_true m _ rfl
  constructor <;> simp [render_poll, hr]

/-- Witness for C9: two ticks before one poll commit exactly one frame. -/
theorem C9_dirty_flag_coalescing_witness :
    (render_poll (ticks 2 ⟨fun _ => 0, true, false⟩) 0).2 = 0 + 1 ∧
    (render_poll (ticks 2 ⟨fun _ => 0, true, false⟩) 0).1.redraw = false :=
  C9_dirty_flag_coalescing ⟨fun _ => 0, true, false⟩ 0 2 (by decide)

/-! ## C10: unrecognized keys -/

/-- C10: an event whose key is none of the six recognized ones gets bit 0,
so press and release leave the whole register file (hence the button mask)
unchanged, yet the interpreter is still invoked at the controller
vector. -/
theorem C10_unrecognized_key (s : UxnState) (h : s.dev 0x82 < 256) :
    button_bit .other = 0 ∧
    (input_callback ⟨.press, .other⟩ s).1.dev = s.dev ∧
    (input_callback ⟨.press, .other⟩ s).2
      = [resolveVector (s.dev 0x80) (s.dev 0x81)] ∧
    (input_callback ⟨.release, .other⟩ s).1.dev = s.dev ∧
    (input_callback ⟨.release, .other⟩ s).2
      = [resolveVector (s.dev 0x80) (s.dev 0x81)] := by
  have hand : s.dev 0x82 &&& 0xFF = s.dev 0x82 := by
    have h255 : (0xFF : Nat) = 2 ^ 8 - 1 := by norm_num
    rw [h255, Nat.and_pow_two_sub_one_eq_mod]
    exact Nat.mod_eq_of_lt h
  refine ⟨rfl, ?_, rfl, ?_, rfl⟩
  · show writeReg s.dev 0x82 (s.dev 0x82 ||| button_bit .other) = s.dev
    funext i
    by_cases hi : i = 0x82 <;> simp [writeReg, hi, lor_zero_self, button_bit]
  · show writeReg s.dev 0x82 (s.dev 0x82 &&& (0xFF ^^^ button_bit .other)) = s.dev
    funext i
    by_cases hi : i = 0x82 <;> simp [writeReg, hi, button_bit, hand]

/-- Witness for C10 at a concrete state. -/
theorem C10_unrecognized_key_witness :
    button_bit .other = 0 ∧
    (input_callback ⟨.press, .other⟩ ⟨fun _ => 9, true, true⟩).1.dev
      = (fun _ => 9) ∧
    (input_callback ⟨.press, .other⟩ ⟨fun _ => 9, true, true⟩).2
      = [resolveVector 9 9] ∧
    (input_callback ⟨.release, .other⟩ ⟨fun _ => 9, true, true⟩).1.dev
      = (fun _ => 9) ∧
    (input_callback ⟨.release, .other⟩ ⟨fun _ => 9, true, true⟩).2
      = [resolveVector 9 9] :=
  C10_unrecognized_key ⟨fun _ => 9, true, true⟩ (by decide)

end FlipperUxn
